import Mathlib

/-!
A shallow embedding of the `nbodykit.io` core (`src/nbodykit/io/__init__.py`):
the `FileType` file-view abstraction with its indexing algebra
(`__getitem__`), the structured-to-homogeneous conversion (`asarray`) and
the slice-size helper (`get_slice_size`).

Modelling conventions:
* Python ints are `Int` (row counts are `Nat` where the source guarantees
  nonnegativity, cast to `Int` in index arithmetic).
* A numpy structured dtype is `Dtype.structured` over a list of named
  fields, each with a scalar base-type tag and an optional vector
  sub-shape; a flat (unstructured) dtype is `Dtype.flat`.
* A backend's cell data is a table `Nat → String → List Int` (row, column
  name ↦ the flattened cell contents); the abstract `read` contract of the
  spec is `backendRead`.
* Exceptions are `Except Err`, with one `Err` constructor per distinct
  error raised by the source.
-/

/-- A named field of a structured dtype: its name, the base scalar type
(`dtype[col].base` in numpy, modelled as a tag) and the fixed vector
sub-shape (`dtype[col].shape`, `[]` for a scalar field). -/
structure NpField where
  name : String
  tyBase : String
  subshape : List Nat
deriving DecidableEq

/-- A numpy dtype: either structured (ordered named fields) or flat. -/
inductive Dtype where
  | structured (fields : List NpField)
  | flat (tyBase : String)
deriving DecidableEq

/-- `dtype.names`: `None` for a flat dtype, the field names otherwise. -/
def Dtype.names : Dtype → Option (List String)
  | .structured fields => some (fields.map NpField.name)
  | .flat _ => none

/-- `len(dtype)`: the number of named fields (0 for a flat dtype). -/
def Dtype.len : Dtype → Nat
  | .structured fields => fields.length
  | .flat _ => 0

/-- The field list of a dtype (empty for a flat dtype). -/
def Dtype.fieldsList : Dtype → List NpField
  | .structured fields => fields
  | .flat _ => []

/-- `dtype[0]`: the first field; only consulted after the source has
checked `len(dtype) != 0`, so the dummy default is never meaningful. -/
def Dtype.field0 (d : Dtype) : NpField :=
  d.fieldsList.headD ⟨"", "", []⟩

/-- `dtype[col]`: field lookup by name; only consulted after the source
has validated `col` against `keys()`, so the dummy default is never
meaningful. -/
def Dtype.lookupField (d : Dtype) (col : String) : NpField :=
  (d.fieldsList.find? (fun f => f.name == col)).getD ⟨col, "", []⟩

/-- `get_slice_size(start, stop, step)` from the source: Python
`divmod` is floor division with floor remainder, i.e. `Int.fdiv` and
`Int.fmod`. -/
def get_slice_size (start stop step : Int) : Int :=
  let N := Int.fdiv (stop - start) step
  let remainder := Int.fmod (stop - start) step
  if remainder ≠ 0 then N + 1 else N

/-- The indices of the arithmetic sequence `start, start+step, ...` that
lie strictly between `start` (inclusive) and `stop` (exclusive, from
above for positive step, from below for negative step). This is the row
set a Python `range(start, stop, step)` walks. -/
def sliceIndices (start stop step : Int) : List Int :=
  if 0 < step then
    (List.range ((stop - start + step - 1).toNat / step.toNat)).map
      (fun k => start + step * (k : Int))
  else if step < 0 then
    (List.range ((start - stop - step - 1).toNat / (-step).toNat)).map
      (fun k => start + step * (k : Int))
  else []

/-- The number of indices `start, start+step, ...` strictly below `stop`,
counted directly (for `step ≥ 1` every such index has offset
`k ≤ stop - start`, so the bounded range below covers them all). -/
def sliceCount (start stop step : Int) : Nat :=
  ((Finset.range ((stop - start).toNat + 1)).filter
    (fun k : Nat => start + step * (k : Int) < stop)).card

/-- A Python `slice` object: optional start/stop/step. -/
structure PySlice where
  start : Option Int
  stop : Option Int
  step : Option Int
deriving DecidableEq

/-- The distinct errors raised by the source (`IndexError` /
`ValueError`), one constructor per raise site. -/
inductive Err where
  /-- `__getitem__`: "cannot access view of specific columns after
  `asarray()` has been called" (the dtype has no named fields). -/
  | flattenedAccess
  /-- `__getitem__`: "invalid string keys: ..." carrying the reported
  name list. -/
  | invalidKeys (invalid : List String)
  /-- `__getitem__`: "file dimension is %d, but you supplied tuple of
  length %d". -/
  | rankMismatch (fileRank tupleLen : Nat)
  /-- `__getitem__`: "tuple index ... not understood" (a tuple that is
  neither of length 1 nor 2 yet passes the rank check). -/
  | tupleNotUnderstood
  /-- `slice.indices`: Python raises `ValueError` on a zero step. -/
  | zeroStep
  /-- `__getitem__`: "error trying to view slice as a single numpy
  array" (the reshape to `(-1, shape[1])` fails). -/
  | viewError
  /-- numpy `IndexError` from applying a second-axis index to a buffer
  that is not two-dimensional (unreachable through `__getitem__`: a
  second-axis index is only accepted when the shape has rank ≥ 2,
  which only flattened views have). -/
  | secondAxisUnsupported
  /-- numpy `IndexError` from an out-of-range second-axis integer. -/
  | secondAxisOutOfRange
  /-- `asarray`: "no named dtype fields to convert to numpy array". -/
  | noNamedFields
  /-- `asarray`: "cannot convert multiple vector data types ...". -/
  | multipleVector
  /-- `asarray`: "cannot convert data types of different types ...". -/
  | differentTypes
deriving DecidableEq

/-- An index expression usable on the row axis (or the second axis): a
Python int or slice. -/
inductive Atom where
  | int (i : Int)
  | slc (sl : PySlice)
deriving DecidableEq

/-- The index expressions `__getitem__` handles: a bare column-name
string, a list of column names, a bare int/slice, or a tuple. -/
inductive Idx where
  | str (x : String)
  | strs (names : List String)
  | atom (a : Atom)
  | tup (elems : List Atom)
deriving DecidableEq

/-- A data buffer returned from indexing: a structured array (rows ×
selected fields × flattened cell contents), a flat 1-D array, or a flat
2-D array. -/
inductive Buf where
  | structured (rows : List (List (List Int)))
  | flat1 (xs : List Int)
  | flat2 (rows : List (List Int))
deriving DecidableEq

/-- `slice.indices(length)` as CPython implements it
(`PySlice_Unpack` + `PySlice_AdjustIndices`): defaults filled from the
step sign, negative endpoints shifted by `length`, then clamped. -/
def PySlice.indices (sl : PySlice) (length : Int) : Except Err (Int × Int × Int) :=
  let step := sl.step.getD 1
  if step = 0 then .error .zeroStep else
  let lower : Int := if step < 0 then -1 else 0
  let upper : Int := if step < 0 then length - 1 else length
  let start := match sl.start with
    | none => if step < 0 then upper else lower
    | some v => if v < 0 then max (v + length) lower else min v upper
  let stop := match sl.stop with
    | none => if step < 0 then lower else upper
    | some v => if v < 0 then max (v + length) lower else min v upper
  .ok (start, stop, step)

/-- Modelled from the spec: the backend `read(columns, start, stop,
step)` contract (§6) — return exactly the rows `start, start+step, ...`
strictly below `stop`, restricted to `columns` in the requested order.
The backend itself is external to the repository; its cell data is the
table `tbl`. Out-of-range row indices are backend-defined; the model
clamps negatives via `Int.toNat`. -/
def backendRead (tbl : Nat → String → List Int) (cols : List String)
    (start stop step : Int) : List (List (List Int)) :=
  (sliceIndices start stop step).map (fun i => cols.map (fun c => tbl i.toNat c))

/-- The file-view object (`FileType` instances and the shadow objects
`__getitem__`/`asarray` build via `object.__new__`).  `columnsOpt` and
`shapeOpt` model the `_columns`/`_shape` attributes that back the
`columns`/`shape` properties (absent unless explicitly set); `base` is
the delegation reference; `tbl` is the backend cell table a concrete
root holds (shadow objects are created by `object.__new__`, which leaves
backend state unset — their `tbl` is a junk default that is never
consulted, because every shadow object has `base` set and physical reads
delegate). -/
inductive FV : Type where
  | mk (dtype : Dtype) (size : Nat) (columnsOpt : Option (List String))
       (shapeOpt : Option (List Nat)) (base : Option FV)
       (tbl : Nat → String → List Int) : FV

/-- The `dtype` attribute. -/
def FV.dtype : FV → Dtype
  | .mk d _ _ _ _ _ => d

/-- The `size` attribute. -/
def FV.size : FV → Nat
  | .mk _ n _ _ _ _ => n

/-- The `_columns` attribute (absent unless set). -/
def FV.columnsOpt : FV → Option (List String)
  | .mk _ _ c _ _ _ => c

/-- The `_shape` attribute (absent unless set). -/
def FV.shapeOpt : FV → Option (List Nat)
  | .mk _ _ _ sh _ _ => sh

/-- The `base` attribute (`getattr(self, 'base', None)`). -/
def FV.base : FV → Option FV
  | .mk _ _ _ _ b _ => b

/-- The backend cell table of the object (meaningful on roots only). -/
def FV.tbl : FV → Nat → String → List Int
  | .mk _ _ _ _ _ t => t

/-- The `columns` property: `_columns` when set, else
`list(self.dtype.names)`.  For a flat dtype `names` is `None` and Python
would raise on `list(None)`; that fallback is unreachable because every
flat view records `_columns` when `asarray` builds it, so the model
returns `[]` there. -/
def FV.columns (v : FV) : List String :=
  match v.columnsOpt with
  | some cols => cols
  | none => (v.dtype.names).getD []

/-- `keys()`: alias of `columns`. -/
def FV.keys (v : FV) : List String := v.columns

/-- The `ncol` property. -/
def FV.ncol (v : FV) : Nat := v.columns.length

/-- The `shape` property: `_shape` when set, else `(size,)`. -/
def FV.shape (v : FV) : List Nat :=
  match v.shapeOpt with
  | some sh => sh
  | none => [v.size]

/-- The object a physical read is served from: `base` when present,
else the object itself (a theorem-side abbreviation of the dispatch in
the source's read call). -/
def FV.readSource (v : FV) : FV := v.base.getD v

/-- The result of `__getitem__`: either a derived view object (column
selection) or a data buffer (row reads). -/
inductive GetResult where
  | view (v : FV)
  | data (b : Buf)

/-- `asarray()` precondition 1: `not len(self.dtype)`. -/
def asarrayNoFields (v : FV) : Bool := v.dtype.len == 0

/-- `asarray()` precondition 2: `len(self.dtype) > 1 and any(len(self.dtype[col].shape) for col in self.dtype.names)`. -/
def asarrayMultiVector (v : FV) : Bool :=
  decide (1 < v.dtype.len) && v.dtype.fieldsList.any (fun f => !f.subshape.isEmpty)

/-- `asarray()` precondition 3: `any(self.dtype[col].base != self.dtype[0].base for col in self.dtype.names)`. -/
def asarrayMixedTypes (v : FV) : Bool :=
  v.dtype.fieldsList.any (fun f => f.tyBase != v.dtype.field0.tyBase)

/-- `asarray()`: convert a structured view into a homogeneous-array
view sharing the same backing. -/
def FV.asarray (v : FV) : Except Err FV :=
  if asarrayNoFields v then .error .noNamedFields
  else if asarrayMultiVector v then .error .multipleVector
  else if asarrayMixedTypes v then .error .differentTypes
  else
    let subshape := if v.dtype.len == 1 then v.dtype.field0.subshape
                    else [v.dtype.len]
    .ok (FV.mk (.flat v.dtype.field0.tyBase) v.size (some v.keys)
               (some (v.size :: subshape))
               (some (v.base.getD v)) (fun _ _ => []))

/-- Split a flat buffer into rows of width `k` (numpy
`reshape(-1, shape[1])`, called only after divisibility holds). -/
def chunkRows (k : Nat) (xs : List Int) : List (List Int) :=
  (List.range (xs.length / k)).map (fun i => (xs.drop (i * k)).take k)

/-- The post-read reinterpretation for views whose dtype has no named
fields: `toret.view(self.dtype)` flattens the structured buffer into a
homogeneous array (all cells share the flat scalar type), and a shape of
rank > 1 additionally reshapes to `(-1, shape[1])` — which numpy rejects
when the element count is not divisible by `shape[1]`, surfaced by the
source as a `ValueError`. -/
def reinterpretFlat (raw : List (List (List Int))) (shape : List Nat) :
    Except Err Buf :=
  let flatv := (raw.map (fun row => row.flatten)).flatten
  match shape with
  | _ :: k :: _ =>
    if k ≠ 0 ∧ flatv.length % k = 0 then .ok (.flat2 (chunkRows k flatv))
    else .error .viewError
  | _ => .ok (.flat1 flatv)

/-- numpy integer indexing on one row of a 2-D buffer: negative indices
count from the end; out-of-range raises `IndexError`. -/
def pyListGet (r : List Int) (j : Int) : Except Err Int :=
  let j2 := if j < 0 then j + r.length else j
  if h : 0 ≤ j2 ∧ j2 < (r.length : Int) then
    .ok (r.get ⟨j2.toNat, by omega⟩)
  else .error .secondAxisOutOfRange

/-- numpy slice indexing on one row of a 2-D buffer. -/
def pyListSlice (r : List Int) (sl : PySlice) : Except Err (List Int) :=
  match sl.indices r.length with
  | .error e => .error e
  | .ok (start, stop, step) =>
    .ok ((sliceIndices start stop step).map (fun i => r.getD i.toNat 0))

/-- `toret[:, second_axis_index]`: apply the second-axis index to the
trailing axis of the result buffer.  Only a 2-D flat buffer supports it;
the other cases are numpy `IndexError`s and are unreachable through
`__getitem__` (a second-axis index is accepted only when the shape has
rank ≥ 2). -/
def applySecond (b : Buf) (a : Atom) : Except Err Buf :=
  match b with
  | .flat2 rows =>
    match a with
    | .int j => (rows.mapM (fun r => pyListGet r j)).map Buf.flat1
    | .slc sl => (rows.mapM (fun r => pyListSlice r sl)).map Buf.flat2
  | _ => .error .secondAxisUnsupported

/-- The row-read pipeline of `__getitem__` for an int/slice row index:
resolve the row range, dispatch the physical read (own `read` when
`base` is absent, else `base.read`, always passing the view's own
`keys()`), then reinterpret when the dtype has no named fields. -/
def FV.rowData (v : FV) (a : Atom) : Except Err Buf :=
  let rangeRes : Except Err (Int × Int × Int) :=
    match a with
    | .int i =>
      let i2 := if i < 0 then i + (v.size : Int) else i
      .ok (i2, i2 + 1, (1 : Int))
    | .slc sl => sl.indices v.size
  match rangeRes with
  | .error e => .error e
  | .ok (start, stop, step) =>
    let raw :=
      match v.base with
      | none => backendRead v.tbl v.keys start stop step
      | some b => backendRead b.tbl v.keys start stop step
    if v.dtype.len == 0 then reinterpretFlat raw v.shape
    else .ok (Buf.structured raw)

/-- The int/slice/tuple arm of `__getitem__`: read the rows, then apply
the second-axis index (if one was supplied) last. -/
def FV.getitemRow (v : FV) (a : Atom) (second : Option Atom) :
    Except Err GetResult :=
  match v.rowData a with
  | .error e => .error e
  | .ok b =>
    match second with
    | none => .ok (GetResult.data b)
    | some a2 => Except.map GetResult.data (applySecond b a2)

/-- The list-of-column-names arm of `__getitem__` (also reached by a
bare string, with `asarray := true`): validate, build the derived view
with the sliced dtype, and flatten it when a single bare-string key was
given. -/
def FV.getitemList (v : FV) (s : List String) (asarray : Bool) :
    Except Err GetResult :=
  if (v.dtype.names).isNone then .error .flattenedAccess
  else if !(s.all (fun ss => v.keys.contains ss)) then
    -- The source's comprehension tests `s not in self.keys()` — the whole
    -- index list, not the loop variable `col`; a list is never an element
    -- of a list of strings, so the test always holds and every requested
    -- name is kept in the reported list.
    let invalid := s.filter (fun _col => true)
    .error (.invalidKeys invalid)
  else
    let obj : FV :=
      FV.mk (.structured (s.map (fun col =>
               let fd := v.dtype.lookupField col
               ⟨col, fd.tyBase, fd.subshape⟩)))
            v.size none none
            (some (v.base.getD v))
            (fun _ _ => [])
    if s.length == 1 && asarray then
      match obj.asarray with
      | .ok flatObj => .ok (.view flatObj)
      | .error e => .error e
    else .ok (.view obj)

/-- `__getitem__`: dispatch on the index expression's shape.  A bare
string becomes a singleton list with the flatten flag set; a tuple is
rank-checked against `shape` and unpacked into a row index plus an
optional second-axis index. -/
def FV.getitem (v : FV) (idx : Idx) : Except Err GetResult :=
  match idx with
  | .str x => v.getitemList [x] true
  | .strs s => v.getitemList s false
  | .atom a => v.getitemRow a none
  | .tup es =>
    if v.shape.length < es.length then
      .error (.rankMismatch v.shape.length es.length)
    else
      match es with
      | [a] => v.getitemRow a none
      | [a, b] => v.getitemRow a (some b)
      | _ => .error .tupleNotUnderstood

/-- For `step ≥ 1` and `start ≤ stop`, membership of offset `k` in the
slice is an initial segment: `start + step * k < stop` iff
`k < get_slice_size start stop step`. -/
theorem get_slice_size_key (start stop step : Int) (h1 : start ≤ stop)
    (h3 : 1 ≤ step) (k : Int) (hk : 0 ≤ k) :
    (start + step * k < stop) ↔ k < get_slice_size start stop step := by
  have hst : 0 < step := by omega
  have hD : 0 ≤ stop - start := by omega
  have hdm := Int.ediv_add_emod (stop - start) step
  have hr0 : 0 ≤ (stop - start) % step := Int.emod_nonneg _ (by omega)
  have hrs : (stop - start) % step < step := Int.emod_lt_of_pos _ hst
  have hq0 : 0 ≤ (stop - start) / step := Int.ediv_nonneg hD (by omega)
  simp only [get_slice_size, Int.fdiv_eq_ediv _ (by omega : (0:Int) ≤ step),
    Int.fmod_eq_emod _ (by omega : (0:Int) ≤ step)]
  set q := (stop - start) / step with hqdef
  set r := (stop - start) % step with hrdef
  by_cases hr : r = 0
  · simp only [hr, ne_eq, not_true_eq_false, if_false]
    have hDq : stop - start = step * q := by omega
    constructor
    · intro h
      have : step * k < step * q := by omega
      exact lt_of_mul_lt_mul_left this (by omega)
    · intro h
      have : step * k < step * q := by
        exact (mul_lt_mul_left hst).mpr h
      omega
  · simp only [ne_eq, hr, not_false_eq_true, if_true]
    constructor
    · intro h
      have hlt : step * k < step * (q + 1) := by
        have : step * (q + 1) = step * q + step := by ring
        omega
      exact lt_of_mul_lt_mul_left hlt (by omega)
    · intro h
      have hkq : k ≤ q := by omega
      have : step * k ≤ step * q := by
        exact (mul_le_mul_left hst).mpr hkq
      omega

/-- C2: for all `0 ≤ start ≤ stop ≤ size` and `step ≥ 1`,
`get_slice_size start stop step` equals the number of indices in the
arithmetic sequence `start, start + step, ...` that are strictly below
`stop`. -/
theorem C2_get_slice_size_counts (size start stop step : Int)
    (h0 : 0 ≤ start) (h1 : start ≤ stop) (h2 : stop ≤ size) (h3 : 1 ≤ step) :
    get_slice_size start stop step = (sliceCount start stop step : Int) := by
  have hst : 0 < step := by omega
  have hq0 : 0 ≤ (stop - start) / step := Int.ediv_nonneg (by omega) (by omega)
  have hr0 : 0 ≤ (stop - start) % step := Int.emod_nonneg _ (by omega)
  have hdm := Int.ediv_add_emod (stop - start) step
  have hc0 : 0 ≤ get_slice_size start stop step := by
    simp only [get_slice_size, Int.fdiv_eq_ediv _ (by omega : (0:Int) ≤ step),
      Int.fmod_eq_emod _ (by omega : (0:Int) ≤ step)]
    split <;> omega
  have hcD : get_slice_size start stop step ≤ (stop - start) + 1 := by
    have hqq : (stop - start) / step ≤ step * ((stop - start) / step) :=
      le_mul_of_one_le_left hq0 h3
    simp only [get_slice_size, Int.fdiv_eq_ediv _ (by omega : (0:Int) ≤ step),
      Int.fmod_eq_emod _ (by omega : (0:Int) ≤ step)]
    split <;> omega
  have hset : ((Finset.range ((stop - start).toNat + 1)).filter
      (fun k : Nat => start + step * (k : Int) < stop)) =
      Finset.range (get_slice_size start stop step).toNat := by
    ext k
    simp only [Finset.mem_filter, Finset.mem_range]
    constructor
    · rintro ⟨hk, hlt⟩
      have := (get_slice_size_key start stop step h1 h3 k (by omega)).mp hlt
      omega
    · intro hk
      have hkc : (k : Int) < get_slice_size start stop step := by omega
      have := (get_slice_size_key start stop step h1 h3 k (by omega)).mpr hkc
      exact ⟨by omega, this⟩
  simp only [sliceCount, hset, Finset.card_range]
  omega

/-- Witness for C2 at the spec's own example: `get_slice_size 0 10 3`
counts the four indices 0, 3, 6, 9. -/
theorem C2_get_slice_size_counts_witness :
    get_slice_size 0 10 3 = (sliceCount 0 10 3 : Int) ∧ get_slice_size 0 10 3 = 4 :=
  ⟨C2_get_slice_size_counts 10 0 10 3 (by omega) (by omega) (by omega) (by omega),
    by decide⟩

/-- An example backend cell table: column `a` holds the row number,
column `b` ten times the row number. -/
def exTbl : Nat → String → List Int := fun i c =>
  if c == "a" then [(i : Int)]
  else if c == "b" then [10 * (i : Int)]
  else [100 * (i : Int)]

/-- An example root file view: four rows, two scalar fields `a`, `b`
of the same base type. -/
def exRoot : FV :=
  FV.mk (.structured [⟨"a", "f4", []⟩, ⟨"b", "f4", []⟩]) 4 none none none exTbl

/-- C9: on any view, a negative integer row index `i` with
`-size ≤ i < 0` produces exactly the same result as the index
`i + size`; in particular `view[-1]` reads the same data as
`view[size-1]`. -/
theorem C9_negative_index (v : FV) (i : Int)
    (h1 : -(v.size : Int) ≤ i) (h2 : i < 0) :
    v.getitem (.atom (.int i)) = v.getitem (.atom (.int (i + (v.size : Int)))) := by
  have hi : ¬ (i + (v.size : Int) < 0) := by omega
  simp only [FV.getitem, FV.getitemRow, FV.rowData]
  rw [if_pos h2, if_neg hi]

/-- Witness for C9: `exRoot[-1]` equals `exRoot[4 - 1]`. -/
theorem C9_negative_index_witness :
    exRoot.getitem (.atom (.int (-1))) =
      exRoot.getitem (.atom (.int (-1 + (exRoot.size : Int)))) :=
  C9_negative_index exRoot (-1) (by decide) (by decide)

/-- An example root whose two fields have different base scalar types
(violating the `asarray` type precondition). -/
def exMixed : FV :=
  FV.mk (.structured [⟨"a", "f4", []⟩, ⟨"b", "i8", []⟩]) 4 none none none exTbl

/-- C5: `asarray()` fails with the value error naming the specific
violation exactly when a precondition is violated — no named fields,
more than one field with some vector sub-shape, or fields of different
base scalar types (checked in that order) — and succeeds otherwise. -/
theorem C5_asarray_errors (v : FV) :
    (asarrayNoFields v = true → v.asarray = .error .noNamedFields) ∧
    (asarrayNoFields v = false → asarrayMultiVector v = true →
      v.asarray = .error .multipleVector) ∧
    (asarrayNoFields v = false → asarrayMultiVector v = false →
      asarrayMixedTypes v = true → v.asarray = .error .differentTypes) ∧
    (asarrayNoFields v = false → asarrayMultiVector v = false →
      asarrayMixedTypes v = false → ∃ w, v.asarray = .ok w) := by
  refine ⟨fun h1 => ?_, fun h1 h2 => ?_, fun h1 h2 h3 => ?_, fun h1 h2 h3 => ?_⟩
  · simp [FV.asarray, h1]
  · simp [FV.asarray, h1, h2]
  · simp [FV.asarray, h1, h2, h3]
  · refine ⟨FV.mk (Dtype.flat v.dtype.field0.tyBase) v.size (some v.keys)
      (some (v.size :: (if v.dtype.len == 1 then v.dtype.field0.subshape
                        else [v.dtype.len])))
      (some (v.base.getD v)) (fun _ _ => []), ?_⟩
    simp [FV.asarray, h1, h2, h3]

/-- Witness for C5: the mixed-type example fails with the type error,
and the homogeneous example succeeds. -/
theorem C5_asarray_errors_witness :
    exMixed.asarray = .error .differentTypes ∧ ∃ w, exRoot.asarray = .ok w :=
  ⟨(C5_asarray_errors exMixed).2.2.1 rfl rfl rfl,
    (C5_asarray_errors exRoot).2.2.2 rfl rfl rfl⟩

/-- C4: when the `asarray` preconditions hold, the resulting view has
shape `(size,) + subshape` — `subshape` being the single field's vector
sub-shape if there is exactly one field, else `(number_of_fields,)` —
its `columns` records the original column order, and its `size` equals
the parent's. -/
theorem C4_asarray_shape (v : FV)
    (h1 : asarrayNoFields v = false)
    (h2 : asarrayMultiVector v = false)
    (h3 : asarrayMixedTypes v = false) :
    ∃ w, v.asarray = .ok w ∧
      w.shape = v.size :: (if v.dtype.len == 1 then v.dtype.field0.subshape
                           else [v.dtype.len]) ∧
      w.columns = v.columns ∧ w.size = v.size := by
  have key : v.asarray = Except.ok (FV.mk (Dtype.flat v.dtype.field0.tyBase)
      v.size (some v.keys)
      (some (v.size :: (if v.dtype.len == 1 then v.dtype.field0.subshape
                        else [v.dtype.len])))
      (some (v.base.getD v)) (fun _ _ => [])) := by
    simp [FV.asarray, h1, h2, h3]
  refine ⟨_, key, ?_, ?_, ?_⟩
  · simp [FV.shape, FV.shapeOpt]
  · simp [FV.columns, FV.columnsOpt, FV.keys]
  · simp [FV.size]

/-- Witness for C4 at the two-scalar-field example: the flattened view
has shape `(4, 2)`, the original columns and the original size. -/
theorem C4_asarray_shape_witness :
    ∃ w, exRoot.asarray = .ok w ∧
      w.shape = exRoot.size :: (if exRoot.dtype.len == 1
                                then exRoot.dtype.field0.subshape
                                else [exRoot.dtype.len]) ∧
      w.columns = exRoot.columns ∧ w.size = exRoot.size :=
  C4_asarray_shape exRoot rfl rfl rfl

/-- C7: once a view's dtype has been flattened (no named fields),
indexing with a bare string or with a list of strings raises the
invalid-key index error explaining that name-based access is blocked
after `asarray()`; integer and slice row indexing remain available
(shown here on a rank-1 flattened view, where they always succeed). -/
theorem C7_flattened_blocks_name_access (v : FV) (t : String)
    (hd : v.dtype = .flat t) :
    (∀ x, v.getitem (.str x) = .error .flattenedAccess) ∧
    (∀ names, v.getitem (.strs names) = .error .flattenedAccess) ∧
    (∀ n, v.shapeOpt = some [n] → ∀ i : Int,
      ∃ b, v.getitem (.atom (.int i)) = .ok (.data b)) ∧
    (∀ n, v.shapeOpt = some [n] → ∀ sl : PySlice, ¬ sl.step.getD 1 = 0 →
      ∃ b, v.getitem (.atom (.slc sl)) = .ok (.data b)) := by
  refine ⟨?_, ?_, ?_, ?_⟩
  · intro x
    simp [FV.getitem, FV.getitemList, hd, Dtype.names]
  · intro names
    simp [FV.getitem, FV.getitemList, hd, Dtype.names]
  · intro n hn i
    cases hb : v.base with
    | none =>
      simp only [FV.getitem, FV.getitemRow, FV.rowData, hb, hd, Dtype.len,
        FV.shape, hn, reinterpretFlat, beq_self_eq_true, if_true]
      exact ⟨_, rfl⟩
    | some b =>
      simp only [FV.getitem, FV.getitemRow, FV.rowData, hb, hd, Dtype.len,
        FV.shape, hn, reinterpretFlat, beq_self_eq_true, if_true]
      exact ⟨_, rfl⟩
  · intro n hn sl hst
    cases hb : v.base with
    | none =>
      simp only [FV.getitem, FV.getitemRow, FV.rowData, PySlice.indices,
        if_neg hst, hb, hd, Dtype.len, FV.shape, hn, reinterpretFlat,
        beq_self_eq_true, if_true]
      exact ⟨_, rfl⟩
    | some b =>
      simp only [FV.getitem, FV.getitemRow, FV.rowData, PySlice.indices,
        if_neg hst, hb, hd, Dtype.len, FV.shape, hn, reinterpretFlat,
        beq_self_eq_true, if_true]
      exact ⟨_, rfl⟩

/-- A flattened rank-1 view of column `a` of `exRoot` (what
`exRoot['a']` returns). -/
def exFlatA : FV :=
  FV.mk (.flat "f4") 4 (some ["a"]) (some [4]) (some exRoot) (fun _ _ => [])

/-- Witness for C7 on `exFlatA`: string and list access fail with the
flattening error; an integer and a full-slice row read succeed. -/
theorem C7_flattened_blocks_name_access_witness :
    exFlatA.getitem (.str "a") = .error .flattenedAccess ∧
    exFlatA.getitem (.strs ["a", "b"]) = .error .flattenedAccess ∧
    (∃ b, exFlatA.getitem (.atom (.int 1)) = .ok (.data b)) ∧
    (∃ b, exFlatA.getitem (.atom (.slc ⟨none, none, none⟩)) = .ok (.data b)) :=
  ⟨(C7_flattened_blocks_name_access exFlatA "f4" rfl).1 "a",
   (C7_flattened_blocks_name_access exFlatA "f4" rfl).2.1 ["a", "b"],
   (C7_flattened_blocks_name_access exFlatA "f4" rfl).2.2.1 4 rfl 1,
   (C7_flattened_blocks_name_access exFlatA "f4" rfl).2.2.2 4 rfl
     ⟨none, none, none⟩ (by decide)⟩

/-- C6 is a bug in the source (flagged in the design notes): the
invalid-key error is raised exactly when some requested name is not in
`keys()`, but the reported list is every requested name — the valid
`"a"` included — because the comprehension tests the whole index list
`s`, not the loop variable `col`, against `keys()`.  Here `"a"` is a
valid column of `exRoot` and `"nope"` is not, yet the error carries
`["a", "nope"]` rather than `["nope"]`. -/
theorem C6_invalid_keys_reports_all_names :
    exRoot.getitem (.strs ["a", "nope"]) =
      .error (.invalidKeys ["a", "nope"]) ∧
    exRoot.keys.contains "a" = true ∧
    exRoot.keys.contains "nope" = false :=
  ⟨rfl, rfl, rfl⟩

/-- The row range of integer index `i` covers exactly row `i`. -/
theorem sliceIndices_single (i : Int) : sliceIndices i (i + 1) 1 = [i] := by
  have h1 : i + 1 - i + 1 - 1 = (1 : Int) := by ring
  simp [sliceIndices, h1, List.range_succ]

/-- The full-slice row range `0, 1, ..., n-1`. -/
theorem sliceIndices_full (n : Nat) :
    sliceIndices 0 n 1 = (List.range n).map (fun k : Nat => (k : Int)) := by
  have h1 : (n : Int) - 0 + 1 - 1 = (n : Int) := by ring
  simp [sliceIndices, h1]
  rw [List.map_eq_flatMap]

/-- C1: selecting a list `s` of valid column names from a structured
view yields a derived view whose `columns` are exactly `s` in the
requested order and whose `size` equals the parent's; reading a row from
the derived view delegates to the owning base, passing the view's own
columns, and returns the fields in the requested order, independent of
the parent's field order. -/
theorem C1_column_selection (v : FV) (fs : List NpField) (s : List String)
    (hd : v.dtype = .structured fs)
    (hv : s.all (fun c => v.keys.contains c) = true) :
    ∃ obj : FV, v.getitem (.strs s) = .ok (.view obj) ∧
      obj.columns = s ∧ obj.size = v.size ∧
      (s ≠ [] → ∀ i : Nat, i < v.size →
        obj.getitem (.atom (.int (i : Int))) =
          .ok (.data (.structured [s.map (fun c => v.readSource.tbl i c)]))) := by
  have hv2 : ∀ x ∈ s, x ∈ v.keys := by simpa using hv
  have key : v.getitem (.strs s) = .ok (.view (FV.mk
      (.structured (s.map (fun col =>
        let fd := v.dtype.lookupField col
        (⟨col, fd.tyBase, fd.subshape⟩ : NpField))))
      v.size none none (some (v.base.getD v)) (fun _ _ => []))) := by
    simp [FV.getitem, FV.getitemList, hd, Dtype.names]
    exact hv2
  refine ⟨_, key, ?_, ?_, ?_⟩
  · simp only [FV.columns, FV.columnsOpt, FV.dtype, Dtype.names,
      List.map_map, Option.getD_some]
    exact List.map_id'' (fun x => rfl) s
  · simp [FV.size]
  · intro hne i hi
    have hnn : ¬ ((i : Int) < 0) := by omega
    obtain ⟨c0, s2, rfl⟩ : ∃ c0 s2, s = c0 :: s2 := by
      cases s with
      | nil => exact absurd rfl hne
      | cons c0 s2 => exact ⟨c0, s2, rfl⟩
    simp only [FV.getitem, FV.getitemRow, FV.rowData, FV.base, FV.dtype,
      Dtype.len, FV.size, FV.keys, FV.columns, FV.columnsOpt, Dtype.names,
      FV.tbl, if_neg hnn, List.length_map, List.length_cons,
      sliceIndices_single, backendRead, FV.readSource]
    simp [List.map_map, Int.toNat_natCast, Function.comp, backendRead,
      sliceIndices_single]

/-- Witness for C1: `exRoot[['b', 'a']]` has columns `['b', 'a']`, size
4, and reads rows with field `b` first. -/
theorem C1_column_selection_witness :
    ∃ obj : FV, exRoot.getitem (.strs ["b", "a"]) = .ok (.view obj) ∧
      obj.columns = ["b", "a"] ∧ obj.size = exRoot.size ∧
      (["b", "a"] ≠ [] → ∀ i : Nat, i < exRoot.size →
        obj.getitem (.atom (.int (i : Int))) =
          .ok (.data (.structured
            [["b", "a"].map (fun c => exRoot.readSource.tbl i c)]))) :=
  C1_column_selection exRoot _ ["b", "a"] rfl rfl

/-- A bare-string index takes exactly the list path with the flatten
flag set: when `view[[x]]` yields the view `u`, `view[x]` is
`u.asarray()` (propagating its error if it fails). -/
theorem getitemList_single_str (v : FV) (x : String) (u : FV)
    (h : v.getitemList [x] false = .ok (.view u)) :
    v.getitemList [x] true =
      (match u.asarray with
       | .ok o => .ok (.view o)
       | .error e => .error e) := by
  by_cases h1 : (v.dtype.names).isNone = true
  · rw [FV.getitemList, if_pos h1] at h
    cases h
  · by_cases h2 : (!([x].all (fun ss => v.keys.contains ss))) = true
    · rw [FV.getitemList, if_neg h1, if_pos h2] at h
      cases h
    · rw [FV.getitemList, if_neg h1, if_neg h2] at h
      rw [FV.getitemList, if_neg h1, if_neg h2]
      simp only [Bool.and_false, Bool.and_true, Bool.false_eq_true, if_false,
        List.length_cons, List.length_nil, beq_self_eq_true, if_true] at h ⊢
      cases h
      rfl

/-- Reading a single-column rank-1 flattened view over the full slice
delegates to `base` and returns the flat concatenation of the column's
cells across all rows. -/
theorem flatView_full_read (root : FV) (t x : String) (n : Nat) :
    (FV.mk (.flat t) n (some [x]) (some [n]) (some root)
        (fun _ _ => [])).getitem (.atom (.slc ⟨none, none, none⟩)) =
      .ok (.data (.flat1
        (((List.range n).map (fun i => root.tbl i x)).flatten))) := by
  have key : ((backendRead root.tbl [x] 0 (n : Int) 1).map
      (fun row => row.flatten)).flatten =
      ((List.range n).map (fun i => root.tbl i x)).flatten := by
    rw [backendRead, sliceIndices_full, List.map_map, List.map_map]
    congr 1
    apply List.map_congr_left
    intro i hi
    simp [Function.comp, Int.toNat_natCast]
  show Except.ok (GetResult.data (Buf.flat1
      (((backendRead root.tbl [x] 0 (n : Int) 1).map
        (fun row => row.flatten)).flatten))) = _
  rw [key]

/-- C3: indexing a structured view with the bare string `x` returns
exactly the flattened object obtained by selecting the single-column
view `[[x]]` and converting it with `asarray`; for a scalar column,
reading that object over all rows yields the flat 1-D array of the
column's values across all rows. -/
theorem C3_string_key_flattens (v : FV) (fs : List NpField) (x : String)
    (hd : v.dtype = .structured fs)
    (hx : v.keys.contains x = true) :
    ∃ u w, v.getitem (.strs [x]) = .ok (.view u) ∧
      u.asarray = .ok w ∧
      v.getitem (.str x) = .ok (.view w) ∧
      ((v.dtype.lookupField x).subshape = [] →
        w.getitem (.atom (.slc ⟨none, none, none⟩)) =
          .ok (.data (.flat1
            (((List.range v.size).map (fun i => v.readSource.tbl i x)).flatten)))) := by
  have hx2 : x ∈ v.keys := by simpa using hx
  have hu : v.getitem (.strs [x]) = .ok (.view (FV.mk
      (.structured [⟨x, (v.dtype.lookupField x).tyBase,
                        (v.dtype.lookupField x).subshape⟩])
      v.size none none (some (v.base.getD v)) (fun _ _ => []))) := by
    simp [FV.getitem, FV.getitemList, hd, Dtype.names, hx2]
  have hw : (FV.mk
      (.structured [⟨x, (v.dtype.lookupField x).tyBase,
                        (v.dtype.lookupField x).subshape⟩])
      v.size none none (some (v.base.getD v)) (fun _ _ => [])).asarray =
      .ok (FV.mk (.flat (v.dtype.lookupField x).tyBase) v.size (some [x])
        (some (v.size :: (v.dtype.lookupField x).subshape))
        (some (v.base.getD v)) (fun _ _ => [])) := by
    simp [FV.asarray, asarrayNoFields, asarrayMultiVector, asarrayMixedTypes,
      FV.dtype, Dtype.len, Dtype.fieldsList, Dtype.field0, FV.keys,
      FV.columns, FV.columnsOpt, Dtype.names, FV.size, FV.base]
  have hstr : v.getitem (.str x) = .ok (.view (FV.mk
      (.flat (v.dtype.lookupField x).tyBase) v.size (some [x])
      (some (v.size :: (v.dtype.lookupField x).subshape))
      (some (v.base.getD v)) (fun _ _ => []))) := by
    have hu2 : v.getitemList [x] false = .ok (.view (FV.mk
        (.structured [⟨x, (v.dtype.lookupField x).tyBase,
                          (v.dtype.lookupField x).subshape⟩])
        v.size none none (some (v.base.getD v)) (fun _ _ => []))) := hu
    have hcomp := getitemList_single_str v x _ hu2
    rw [hw] at hcomp
    exact hcomp
  refine ⟨_, _, hu, hw, hstr, ?_⟩
  intro hsub
  rw [hsub]
  exact flatView_full_read (v.base.getD v) _ x v.size

/-- Witness for C3: `exRoot['a']` is `exRoot[['a']].asarray()`, and its
full-row read is the flat array of column `a`. -/
theorem C3_string_key_flattens_witness :
    ∃ u w, exRoot.getitem (.strs ["a"]) = .ok (.view u) ∧
      u.asarray = .ok w ∧
      exRoot.getitem (.str "a") = .ok (.view w) ∧
      ((exRoot.dtype.lookupField "a").subshape = [] →
        w.getitem (.atom (.slc ⟨none, none, none⟩)) =
          .ok (.data (.flat1
            (((List.range exRoot.size).map
              (fun i => exRoot.readSource.tbl i "a")).flatten)))) :=
  C3_string_key_flattens exRoot _ "a" rfl rfl

/-- C8: a tuple index longer than the rank of the view's shape is
rejected with the index error citing both ranks (so a 2-tuple on a 1-D
unflattened view is rejected with ranks 1 and 2), while on a view of
rank ≥ 2 a 2-tuple's second element is applied to the trailing axis of
the row-read result buffer, after the read and reinterpretation. -/
theorem C8_tuple_rank_and_second_axis (v : FV) :
    (∀ es : List Atom, v.shape.length < es.length →
      v.getitem (.tup es) = .error (.rankMismatch v.shape.length es.length)) ∧
    (v.shapeOpt = none → ∀ a b : Atom,
      v.getitem (.tup [a, b]) = .error (.rankMismatch 1 2)) ∧
    (2 ≤ v.shape.length → ∀ (r c : Atom) (buf : Buf),
      v.getitem (.atom r) = .ok (.data buf) →
      v.getitem (.tup [r, c]) = Except.map GetResult.data (applySecond buf c)) := by
  refine ⟨?_, ?_, ?_⟩
  · intro es h
    simp [FV.getitem, h]
  · intro hs a b
    simp [FV.getitem, FV.shape, hs]
  · intro h2 r c buf hok
    have hlt : ¬ (v.shape.length < 2) := by omega
    have hrow : v.rowData r = .ok buf := by
      have hok2 : v.getitemRow r none = .ok (.data buf) := hok
      rw [FV.getitemRow] at hok2
      cases hr : v.rowData r with
      | error e => rw [hr] at hok2; cases hok2
      | ok b2 =>
        rw [hr] at hok2
        simp only [Except.ok.injEq, GetResult.data.injEq] at hok2
        rw [hok2]
    simp [FV.getitem, hlt, FV.getitemRow, hrow]

/-- The flattened two-column view `exRoot[['b', 'a']].asarray()`. -/
def exFlatBA : FV :=
  FV.mk (.flat "f4") 4 (some ["b", "a"]) (some [4, 2]) (some exRoot)
    (fun _ _ => [])

/-- Witness for C8: the 1-D `exRoot` rejects a 2-tuple with ranks 1 and
2; the flattened 2-D view applies the tuple's second element to the
trailing axis, so `(full slice, 0)` yields column 0. -/
theorem C8_tuple_rank_and_second_axis_witness :
    exRoot.getitem (.tup [.int 0, .int 0]) = .error (.rankMismatch 1 2) ∧
    exFlatBA.getitem (.tup [.slc ⟨none, none, none⟩, .int 0]) =
      Except.map GetResult.data
        (applySecond (.flat2 [[0, 0], [10, 1], [20, 2], [30, 3]]) (.int 0)) ∧
    exFlatBA.getitem (.tup [.slc ⟨none, none, none⟩, .int 0]) =
      .ok (.data (.flat1 [0, 10, 20, 30])) :=
  ⟨(C8_tuple_rank_and_second_axis exRoot).2.1 rfl (.int 0) (.int 0),
   (C8_tuple_rank_and_second_axis exFlatBA).2.2 (by decide)
     (.slc ⟨none, none, none⟩) (.int 0)
     (.flat2 [[0, 0], [10, 1], [20, 2], [30, 3]]) rfl,
   rfl⟩

/-- `asarray` sets the new object's `base` to the parent's `base` when
the parent has one, else to the parent itself. -/
theorem asarray_ok_base (v w : FV) (h : v.asarray = .ok w) :
    w.base = some (v.base.getD v) := by
  simp only [FV.asarray] at h
  split at h
  · cases h
  · split at h
    · cases h
    · split at h
      · cases h
      · injection h with h
        subst h
        rfl

/-- Column selection sets the new object's `base` to the parent's
`base` when the parent has one, else to the parent itself. -/
theorem getitemList_ok_base (v w : FV) (s : List String) (aa : Bool)
    (h : v.getitemList s aa = .ok (.view w)) :
    w.base = some (v.base.getD v) := by
  simp only [FV.getitemList] at h
  split at h
  · cases h
  · split at h
    · cases h
    · split at h
      · split at h
        · rename_i flatObj ha
          injection h with h
          injection h with h
          subst h
          have hb := asarray_ok_base _ _ ha
          simpa using hb
        · cases h
      · injection h with h
        injection h with h
        subst h
        rfl

/-- The views derivable from `r` by column selection (list or
bare-string indexing) and by `asarray`, in any number of steps. -/
inductive DerivedFrom (r : FV) : FV → Prop where
  | refl : DerivedFrom r r
  | colSel (v w : FV) (s : List String) : DerivedFrom r v →
      v.getitem (.strs s) = .ok (.view w) → DerivedFrom r w
  | strSel (v w : FV) (x : String) : DerivedFrom r v →
      v.getitem (.str x) = .ok (.view w) → DerivedFrom r w
  | arr (v w : FV) : DerivedFrom r v → v.asarray = .ok w → DerivedFrom r w

/-- C10: every view derived from a root `r` (one with no `base`) by any
sequence of column selections and `asarray` conversions has its `base`
pointing directly at `r` — the delegation chain never has depth greater
than one. -/
theorem C10_base_points_to_root (r : FV) (hr : r.base = none) (v : FV)
    (h : DerivedFrom r v) : v = r ∨ v.base = some r := by
  induction h with
  | refl => exact Or.inl rfl
  | colSel p w s hder heq ih =>
    right
    have hb := getitemList_ok_base p w s false heq
    rcases ih with h1 | h1
    · subst h1
      rw [hb, hr]
      rfl
    · rw [hb, h1]
      rfl
  | strSel p w x hder heq ih =>
    right
    have hb := getitemList_ok_base p w [x] true heq
    rcases ih with h1 | h1
    · subst h1
      rw [hb, hr]
      rfl
    · rw [hb, h1]
      rfl
  | arr p w hder heq ih =>
    right
    have hb := asarray_ok_base p w heq
    rcases ih with h1 | h1
    · subst h1
      rw [hb, hr]
      rfl
    · rw [hb, h1]
      rfl

/-- The derived view `exRoot[['b']]`, written out. -/
def exSelB : FV :=
  FV.mk (.structured [⟨"b", "f4", []⟩]) 4 none none (some exRoot)
    (fun _ _ => [])

/-- Witness for C10: the view selected from `exRoot` has `base`
pointing directly at `exRoot`. -/
theorem C10_base_points_to_root_witness :
    exSelB = exRoot ∨ exSelB.base = some exRoot :=
  C10_base_points_to_root exRoot rfl exSelB
    (DerivedFrom.colSel exRoot exSelB ["b"] DerivedFrom.refl rfl)
